/-
Verification of swpt_pythonlib: a shallow embedding of the
transactional-outbox flush engine (flask_signalbus/signalbus.py), the
atomic transaction wrapper (flask_signalbus/atomic.py), the
retry-on-conflict primitive (flask_signalbus/utils.py, modelled from
the spec), and the RabbitMQ consumer (rabbitmq/consumer.py).
-/

import Mathlib

namespace SwptPythonlib

/-! ## Outbox flush engine: `flask_signalbus/signalbus.py`

A signal model (record type) is embedded as its delivery capabilities:
the required per-row `send_signalbus_message` method, the optional bulk
`send_signalbus_messages` method, and the `signalbus_burst_count`
attribute (default 1 in the source, asserted positive).  Delivery
methods may raise; raising is embedded as `Except.error`.  The error
type `ε` stands for ordinary (non-serialization) delivery errors.

The pending table of a record type is embedded as a `List α` in storage
order: a row's mere existence in the list is its "pending" state.
Claiming up to B rows with `query.limit(burst_count)` under
`FOR UPDATE SKIP LOCKED` (no concurrent claimants) is `List.take B`;
a committed deletion of the claimed batch is `List.drop B`. -/

structure SignalModel (α ε : Type) where
  send_signalbus_message : α → Except ε Unit
  send_signalbus_messages : Option (List α → Except ε Unit)
  signalbus_burst_count : Nat

/-- Sequential per-row delivery: the `else` branch of
`SignalBus._send_and_delete_signal_instances` (`for instance in
instances: instance.send_signalbus_message()`).  The first raising row
aborts the loop; rows before it have been delivered, none deleted. -/
def sendEach {α ε : Type} (send1 : α → Except ε Unit) : List α → Except ε Unit
  | [] => Except.ok ()
  | x :: xs =>
    match send1 x with
    | Except.error e => Except.error e
    | Except.ok _ => sendEach send1 xs

/-- The delivery part of `SignalBus._send_and_delete_signal_instances`:
bulk method if more than one row and the model has one, else per-row. -/
def deliverBatch {α ε : Type} (m : SignalModel α ε) (instances : List α) : Except ε Unit :=
  if instances.length > 1 then
    match m.send_signalbus_messages with
    | some bulk => bulk instances
    | none => sendEach m.send_signalbus_message instances
  else
    sendEach m.send_signalbus_message instances

/-- `SignalBus._send_and_delete_signal_instances`: deliver the claimed
instances, then mark them all deleted and report their number.  The
deletions happen only after every delivery call has returned without
error; an error leaves every row of the batch in place. -/
def send_and_delete_signal_instances {α ε : Type} (m : SignalModel α ε)
    (instances : List α) : Except ε Nat :=
  match deliverBatch m instances with
  | Except.error e => Except.error e
  | Except.ok _ => Except.ok instances.length

/-- Result of one `SignalBus._flushmany_signals` call: the value of the
call (`Except.ok sent_count`, or the propagated delivery error), the
committed contents of the pending table afterwards, and the number of
completed claim/commit cycles (iterations of the `while True` loop that
reached `self.signal_session.commit()`). -/
structure FlushOutcome (α ε : Type) where
  result : Except ε Nat
  table : List α
  cycles : Nat
deriving Repr

/-- The `while True` loop of `SignalBus._flushmany_signals`, with fuel.
Each iteration claims up to `burst` rows (`query.all()` on the
`limit(burst_count)` / `skip_locked` query), delivers and deletes them,
commits, and stops once the fetched batch was smaller than `burst`.
A delivery error propagates at once: the iteration's deletions are
never committed, so the table keeps the failing batch and every later
row.  Fuel `table.length + 1` always suffices when `burst > 0`. -/
def flushmanyAux {α ε : Type} (m : SignalModel α ε) (burst : Nat) :
    Nat → List α → Nat → Nat → FlushOutcome α ε
  | 0, table, sent, cycles => ⟨Except.ok sent, table, cycles⟩
  | fuel + 1, table, sent, cycles =>
    match send_and_delete_signal_instances m (table.take burst) with
    | Except.error e => ⟨Except.error e, table, cycles⟩
    | Except.ok n =>
      if (table.take burst).length < burst then
        ⟨Except.ok (sent + n), table.drop burst, cycles + 1⟩
      else
        flushmanyAux m burst fuel (table.drop burst) (sent + n) (cycles + 1)

/-- `SignalBus._flushmany_signals` on a pending table: run the burst
loop with sufficient fuel, starting from zero sent signals. -/
def flushmany {α ε : Type} (m : SignalModel α ε) (table : List α) : FlushOutcome α ε :=
  flushmanyAux m m.signalbus_burst_count (table.length + 1) table 0 0

/-! ## Retry-on-conflict primitive: `flask_signalbus/utils.py`

The file `flask_signalbus/utils.py` (defining `retry_on_deadlock` and
`DBSerializationError`) is not part of the source tree; only its import
sites (`signalbus.py`, `atomic.py`) and its test
(`tests/test_signalbus_utils.py`) are.  The primitive is therefore
modelled from the spec. -/

/-- What one invocation of the wrapped callable does: return a value,
raise a conflict-class error (a driver deadlock/serialization error or
an explicit `DBSerializationError`), or raise any other error. -/
inductive CallOutcome (ε ρ : Type) where
  | success (r : ρ)
  | conflict (e : ε)
  | failure (e : ε)

/-- Modelled from the spec: the retry loop of `retry_on_deadlock`
(`flask_signalbus/utils.py`, absent from the source tree).  "invoke it;
on a designated conflict-class error roll back and re-invoke up to N
times with a jittered delay; on exhaustion, propagate the last error;
any other error propagates immediately".  `f i` is the outcome of the
i-th invocation (0-based); `remaining` counts the re-invocations still
allowed.  Returns the total number of invocations performed and the
final result; the jittered sleeping has no observable effect here. -/
def retryGo {ε ρ : Type} (f : Nat → CallOutcome ε ρ) (i : Nat) (remaining : Nat) :
    Nat × Except ε ρ :=
  match f i, remaining with
  | CallOutcome.success r, _ => (i + 1, Except.ok r)
  | CallOutcome.failure e, _ => (i + 1, Except.error e)
  | CallOutcome.conflict e, 0 => (i + 1, Except.error e)
  | CallOutcome.conflict _, rem + 1 => retryGo f (i + 1) rem

/-- Modelled from the spec: `retry_on_deadlock(session, retries=N)(f)()`
invokes `f` at least once and at most `1 + N` times. -/
def retry_on_deadlock {ε ρ : Type} (retries : Nat) (f : Nat → CallOutcome ε ρ) :
    Nat × Except ε ρ :=
  retryGo f 0 retries

/-! ## Atomic transaction wrapper: `flask_signalbus/atomic.py`

The session is embedded as the state the wrapper manipulates: the
"inside atomic" flag (`session.info[_ATOMIC_FLAG_SESSION_INFO_KEY]`)
and counters of committed and rolled-back transactions.  A wrapped
function body is a state transformer that may also raise: `Outcome.err`
is an ordinary unhandled exception, `Outcome.dbserr` is
`DBSerializationError` (the conflict kind the retry primitive
re-invokes on).  The `session.flush()` performed by the inner `f` after
the body, and `session.expunge_all()` before the commit, change no
state observed by these claims; a serialization failure raised by the
flush is covered by a body returning `Outcome.dbserr`. -/

structure Session where
  atomic_flag : Bool
  commits : Nat
  rollbacks : Nat
deriving Repr, DecidableEq

/-- Result of running a wrapped function body (or the wrapper itself):
normal return, ordinary exception, or `DBSerializationError`. -/
inductive Outcome (ρ : Type) where
  | ok (r : ρ)
  | err
  | dbserr
deriving Repr, DecidableEq

/-- A function body as seen by the wrapper: it may read and update the
session and finishes with an `Outcome`. -/
def Body (ρ : Type) : Type := Session → Session × Outcome ρ

/-- Modelled from the spec: the retry loop that
`retry_on_deadlock(session)` wraps around the inner `f` of
`AtomicProceduresMixin.atomic` — on `DBSerializationError` the session
is rolled back and the body re-invoked, up to `retries` more times;
any other outcome is final. -/
def retryBody {ρ : Type} (body : Body ρ) (retries : Nat) (s : Session) :
    Session × Outcome ρ :=
  match body s, retries with
  | (s1, Outcome.dbserr), rem + 1 =>
    retryBody body rem { s1 with rollbacks := s1.rollbacks + 1 }
  | (s1, out), _ => (s1, out)

/-- The `wrapper` closure of `AtomicProceduresMixin.atomic`.  If the
session's atomic flag is already set (a nested invocation) the function
body runs directly, with no commit or rollback of its own.  Otherwise
the flag is set, the body (with its trailing flush) runs under the
retry primitive, and then: on normal return the session is expunged and
committed; on any exception the session is rolled back and the
exception re-raised; the flag is cleared on every path (`finally`).
`commitFail` says whether the `session.commit()` call itself raises;
a failed commit is counted as no commit, and the `except` clause then
rolls back and re-raises. -/
def atomicWrapper {ρ : Type} (retries : Nat) (commitFail : Bool) (body : Body ρ)
    (s : Session) : Session × Outcome ρ :=
  if s.atomic_flag then
    body s
  else
    match retryBody body retries { s with atomic_flag := true } with
    | (s2, Outcome.ok r) =>
      if commitFail then
        ({ s2 with rollbacks := s2.rollbacks + 1, atomic_flag := false }, Outcome.err)
      else
        ({ s2 with commits := s2.commits + 1, atomic_flag := false }, Outcome.ok r)
    | (s2, Outcome.err) =>
      ({ s2 with rollbacks := s2.rollbacks + 1, atomic_flag := false }, Outcome.err)
    | (s2, Outcome.dbserr) =>
      ({ s2 with rollbacks := s2.rollbacks + 1, atomic_flag := false }, Outcome.dbserr)

/-- A user-written body lifted to the wrapper's interface: it reads the
session but performs no commit, rollback or flag change of its own. -/
def liftBody {ρ : Type} (body0 : Session → Outcome ρ) : Body ρ :=
  fun s => (s, body0 s)

/-! ## `AtomicProceduresMixin.__init__`: engine options

Engine options are embedded as an association list of string keys and
values (`None` as `Option.none`; the Python `engine_options or {}`
treats an empty dict like `None`, which `Option.getD []` matches). -/

/-- `AtomicProceduresMixin.__init__`: the engine options passed on to
`super().__init__`.  When the given options carry no `isolation_level`
key (including when no options are given at all), a copy extended with
`isolation_level = "REPEATABLE READ"` is passed; otherwise the given
options are passed through unchanged. -/
def atomicMixinEngineOptions (engine_options : Option (List (String × String))) :
    List (String × String) :=
  let options := engine_options.getD []
  if (options.lookup "isolation_level").isNone then
    options ++ [("isolation_level", "REPEATABLE READ")]
  else
    options

/-! ## RabbitMQ consumer: `rabbitmq/consumer.py`

A worker thread's observable effects are embedded as: the consumer's
`_stopped` flag (set by `Consumer.stop`, observed by the `start` loop's
`if self._stopped: break`, after which `start` raises
`TerminatedConsumtion`), the worker's own `is_running` flag, and the
list of acknowledgements/rejections handed to the connection-owning
thread via `add_callback_threadsafe`, in the order they were handed
off.  A message is identified by its delivery tag. -/

/-- An operation marshalled onto the connection-owning thread:
`channel.basic_ack(delivery_tag)` or
`channel.basic_reject(delivery_tag, requeue)`. -/
inductive AckAction where
  | ack (delivery_tag : Nat)
  | reject (delivery_tag : Nat) (requeue : Bool)
deriving Repr, DecidableEq

structure ConsumerState where
  stopped : Bool
  workerRunning : Bool
  callbacks : List AckAction
deriving Repr, DecidableEq

/-- `_WorkerThread._process_message` on one work item.  The user
callback `process_message` either raises (`Except.error`) or returns a
Bool.  An exception calls `Consumer._on_error` (which calls
`Consumer.stop`, setting `_stopped`) and then `self.stop()` (clearing
`is_running`), and returns without acknowledging or rejecting.  A
`True` return hands off exactly one `basic_ack`; a `False` return hands
off exactly one `basic_reject` with `requeue=False`. -/
def processMessage {ε : Type} (outcome : Except ε Bool) (delivery_tag : Nat)
    (st : ConsumerState) : ConsumerState :=
  match outcome with
  | Except.error _ => { st with stopped := true, workerRunning := false }
  | Except.ok true => { st with callbacks := st.callbacks ++ [AckAction.ack delivery_tag] }
  | Except.ok false =>
    { st with callbacks := st.callbacks ++ [AckAction.reject delivery_tag false] }

/-- The `while self.is_running` loop of `_WorkerThread.run`, over the
sequence of work items this worker pulls from the internal queue (each
item is pulled, hence processed, exactly once).  The loop exits once
`is_running` is cleared, leaving later items unprocessed. -/
def workerLoop {ε : Type} (process : Nat → Except ε Bool) :
    List Nat → ConsumerState → ConsumerState
  | [], st => st
  | delivery_tag :: rest, st =>
    if st.workerRunning then
      workerLoop process rest (processMessage (process delivery_tag) delivery_tag st)
    else
      st

/-- The `start` loop polls `if self._stopped: break`; once stopped it
joins the workers and raises `TerminatedConsumtion`, so consumption
only resumes through an explicit new `start` call. -/
def ioLoopContinues (st : ConsumerState) : Bool :=
  !st.stopped

/-- The action the worker hands off for a message whose callback
returns normally: ack on `True`, reject-without-requeue otherwise. -/
def actionFor {ε : Type} (process : Nat → Except ε Bool) (delivery_tag : Nat) : AckAction :=
  match process delivery_tag with
  | Except.ok true => AckAction.ack delivery_tag
  | _ => AckAction.reject delivery_tag false

/-! ### Draining pauses

`Consumer._make_draining_pause` computes, from the wall clock `epoch =
time.time()` and the current `_draining_pause_seconds`, the instant
`pause_until` at which the pause ends, then doubles
`_draining_pause_seconds` capped at 3600.  Wall-clock instants and
durations are embedded as rationals; Python's float `%` is
`x - y * floor(x / y)`. -/

/-- Python's float modulo `x % y` for positive `y`:
`x - y * ⌊x / y⌋`. -/
def fmod (x y : ℚ) : ℚ :=
  x - y * (Int.floor (x / y) : ℚ)

/-- The pause end instant computed by `Consumer._make_draining_pause`:
`pause_until = epoch + ((epoch + dps) % dps)`. -/
def pause_until_calc (epoch dps : ℚ) : ℚ :=
  epoch + fmod (epoch + dps) dps

/-- The intended pause end instant, per the comment in
`Consumer._make_draining_pause` ("if possible, all draining consumer
instances will start at the same time") and the spec's "end time ...
derived from wall-clock time so independently running instances
converge": the next multiple of `dps` on the wall clock, the same
instant for every instance whose `epoch` falls in the same
`dps`-aligned window. -/
def pause_until_synchronized (epoch dps : ℚ) : ℚ :=
  dps * (Int.floor (epoch / dps) + 1 : ℤ)

/-- The consumer state that governs draining pauses:
`_draining_pause_seconds` and `_stopped`. -/
structure DrainState where
  draining_pause_seconds : ℚ
  stopped : Bool
deriving Repr, DecidableEq

/-- `Consumer.__init__`: `_draining_pause_seconds = 15.0`,
`_stopped = True`. -/
def consumerInit : DrainState :=
  ⟨15, true⟩

/-- The state changes of `Consumer.start` relevant to draining:
`self._stopped = False`.  `start` never touches
`_draining_pause_seconds`. -/
def consumerStart (st : DrainState) : DrainState :=
  { st with stopped := false }

/-- `Consumer.stop` (also called by `_purge` on the way out of
`start`): `self._stopped = True`. -/
def consumerStop (st : DrainState) : DrainState :=
  { st with stopped := true }

/-- The state change of one `Consumer._make_draining_pause`:
`self._draining_pause_seconds = min(2.0 * dps, 3600.0)`. -/
def drainingPause (st : DrainState) : DrainState :=
  { st with draining_pause_seconds := min (2 * st.draining_pause_seconds) 3600 }

/-- A consumer life-cycle event touching the draining state. -/
inductive DrainEvent where
  | start
  | stop
  | drain
deriving Repr, DecidableEq

def applyDrainEvent (st : DrainState) : DrainEvent → DrainState
  | DrainEvent.start => consumerStart st
  | DrainEvent.stop => consumerStop st
  | DrainEvent.drain => drainingPause st

/-- The draining state of one consumer instance after a sequence of
start/stop/draining-pause events since its construction. -/
def runDrainEvents (events : List DrainEvent) : DrainState :=
  events.foldl applyDrainEvent consumerInit

/-! ### Concrete instances used to exercise the models -/

/-- A signal model on `Nat` rows whose every delivery succeeds, with
the given burst count and no bulk method. -/
def allOkModel (burst : Nat) : SignalModel Nat Unit :=
  ⟨fun _ => Except.ok (), none, burst⟩

/-- A signal model with burst count 1 whose delivery raises on row 2
and succeeds on every other row. -/
def failOn2Model : SignalModel Nat String :=
  ⟨fun x => if x = 2 then Except.error "boom" else Except.ok (), none, 1⟩

/-- A processing callback that returns normally: `True` exactly for
even delivery tags. -/
def evenOkCallback : Nat → Except Unit Bool :=
  fun delivery_tag => Except.ok (decide (delivery_tag % 2 = 0))

/-- A processing callback that always raises. -/
def raisingCallback : Nat → Except Unit Bool :=
  fun _ => Except.error ()

/-- An atomic-block body that returns normally. -/
def bodyOk : Session → Outcome Unit :=
  fun _ => Outcome.ok ()

/-- An atomic-block body that raises an ordinary exception. -/
def bodyRaise : Session → Outcome Unit :=
  fun _ => Outcome.err

/-! ## Helper lemmas -/

lemma lookup_append_single {β : Type} (l : List (String × β)) (k : String) (v : β)
    (h : l.lookup k = none) : (l ++ [(k, v)]).lookup k = some v := by
  induction l with
  | nil => simp [List.lookup]
  | cons p tl ih =>
    obtain ⟨k1, v1⟩ := p
    rw [List.lookup] at h
    rw [List.cons_append, List.lookup]
    cases hk : (k == k1) with
    | true => rw [hk] at h; exact absurd h (by simp)
    | false => rw [hk] at h; exact ih h

lemma sendEach_all_ok {α ε : Type} (send1 : α → Except ε Unit)
    (h : ∀ x, send1 x = Except.ok ()) : ∀ l, sendEach send1 l = Except.ok () := by
  intro l
  induction l with
  | nil => rfl
  | cons x xs ih => rw [sendEach, h x]; exact ih

lemma allOkModel_deliverBatch (burst : Nat) : ∀ l, deliverBatch (allOkModel burst) l
    = Except.ok () := by
  intro l
  have hs := sendEach_all_ok (allOkModel burst).send_signalbus_message
    (fun _ => rfl)
  unfold deliverBatch
  split
  · exact hs l
  · exact hs l

/-- Inversion: a delivery error is the only way
`_send_and_delete_signal_instances` can raise. -/
lemma deliverBatch_of_sad_error {α ε : Type} {m : SignalModel α ε} {l : List α} {e : ε}
    (h : send_and_delete_signal_instances m l = Except.error e) :
    deliverBatch m l = Except.error e := by
  unfold send_and_delete_signal_instances at h
  cases hdb : deliverBatch m l with
  | error e1 => rw [hdb] at h; cases h; rfl
  | ok u => rw [hdb] at h; cases h

/-- Inversion: `_send_and_delete_signal_instances` returns normally
exactly when the whole batch was delivered without error. -/
lemma deliverBatch_of_sad_ok {α ε : Type} {m : SignalModel α ε} {l : List α} {n : Nat}
    (h : send_and_delete_signal_instances m l = Except.ok n) :
    deliverBatch m l = Except.ok () := by
  unfold send_and_delete_signal_instances at h
  cases hdb : deliverBatch m l with
  | error e1 => rw [hdb] at h; cases h
  | ok u => cases u; rfl

/-! ## Claim C10: default isolation level -/

/-- C10: when `AtomicProceduresMixin` is constructed with engine
options lacking an `isolation_level` key — including with no engine
options at all — it passes engine options whose isolation level is
`"REPEATABLE READ"` to the underlying database layer (all other
supplied options preserved); an explicitly supplied isolation level is
passed through unchanged. -/
theorem atomicMixin_isolation_level (opts : List (String × String)) :
    atomicMixinEngineOptions none = [("isolation_level", "REPEATABLE READ")]
    ∧ (opts.lookup "isolation_level" = none →
        atomicMixinEngineOptions (some opts)
            = opts ++ [("isolation_level", "REPEATABLE READ")]
        ∧ (atomicMixinEngineOptions (some opts)).lookup "isolation_level"
            = some "REPEATABLE READ")
    ∧ (∀ v, opts.lookup "isolation_level" = some v →
        atomicMixinEngineOptions (some opts) = opts) := by
  refine ⟨rfl, fun h => ?_, fun v h => ?_⟩
  · have heq : atomicMixinEngineOptions (some opts)
        = opts ++ [("isolation_level", "REPEATABLE READ")] := by
      unfold atomicMixinEngineOptions
      simp [h]
    exact ⟨heq, by rw [heq]; exact lookup_append_single opts _ _ h⟩
  · unfold atomicMixinEngineOptions
    simp [h]

/-- C10 witness: concrete engine options, with and without an explicit
isolation level. -/
theorem atomicMixin_isolation_level_witness :
    atomicMixinEngineOptions (some [("pool_size", "10")])
        = [("pool_size", "10"), ("isolation_level", "REPEATABLE READ")]
    ∧ atomicMixinEngineOptions (some [("isolation_level", "SERIALIZABLE")])
        = [("isolation_level", "SERIALIZABLE")] :=
  ⟨((atomicMixin_isolation_level [("pool_size", "10")]).2.1 (by rfl)).1,
    (atomicMixin_isolation_level [("isolation_level", "SERIALIZABLE")]).2.2
      "SERIALIZABLE" (by rfl)⟩

/-! ## Claim C7: draining pause end times do not converge -/

/-- C7 (code bug): two consumer instances with the same pause duration
15 that enter the draining pause 4 seconds apart (at wall-clock 100 and
104) compute pause end times 110 and 118 — 8 seconds apart, further
apart than the instances started.  The synchronized end time the
comment in `Consumer._make_draining_pause` intends ("all draining
consumer instances will start at the same time") is the next multiple
of the pause duration, 105, identical for both; the code's
`epoch + ((epoch + dps) % dps)` equals `epoch + (epoch % dps)` and
depends on `epoch` itself, so the computed end instants do not
converge. -/
theorem pause_end_times_diverge :
    pause_until_calc 100 15 = 110
    ∧ pause_until_calc 104 15 = 118
    ∧ (104 : ℚ) - 100 < 15
    ∧ pause_until_calc 104 15 - pause_until_calc 100 15 = 8
    ∧ pause_until_synchronized 100 15 = 105
    ∧ pause_until_synchronized 104 15 = 105 := by
  refine ⟨?_, ?_, by norm_num, ?_, ?_, ?_⟩ <;>
    norm_num [pause_until_calc, pause_until_synchronized, fmod]

/-! ## Claim C8: draining pause backoff -/

/-- C8 counterexample: the pause duration is not reset by a successful
`start()`.  A consumer that starts, performs two draining pauses, is
stopped and then started again has `_draining_pause_seconds = 60`, not
the initial 15: `Consumer.start` never assigns
`_draining_pause_seconds`; the field is assigned only in
`Consumer.__init__` and at the end of `_make_draining_pause`. -/
theorem draining_pause_not_reset_by_start :
    (runDrainEvents
        [DrainEvent.start, DrainEvent.drain, DrainEvent.drain,
          DrainEvent.stop, DrainEvent.start]).draining_pause_seconds = 60
    ∧ (60 : ℚ) ≠ 15 := by
  constructor
  · norm_num [runDrainEvents, applyDrainEvent, consumerInit, consumerStart,
      consumerStop, drainingPause, List.foldl]
  · norm_num

lemma foldl_drain_pause (st : DrainState)
    (h : st.draining_pause_seconds ≤ 3600) (events : List DrainEvent) :
    (events.foldl applyDrainEvent st).draining_pause_seconds
      = min (st.draining_pause_seconds * 2 ^ (events.count DrainEvent.drain)) 3600 := by
  induction events generalizing st with
  | nil =>
    simp only [List.foldl, List.count_nil, pow_zero, mul_one]
    exact (min_eq_left h).symm
  | cons e es ih =>
    rw [List.foldl_cons]
    cases e with
    | start =>
      rw [show applyDrainEvent st DrainEvent.start = consumerStart st from rfl,
        ih (consumerStart st) h]
      simp [consumerStart, List.count_cons]
    | stop =>
      rw [show applyDrainEvent st DrainEvent.stop = consumerStop st from rfl,
        ih (consumerStop st) h]
      simp [consumerStop, List.count_cons]
    | drain =>
      rw [show applyDrainEvent st DrainEvent.drain = drainingPause st from rfl,
        ih (drainingPause st) (min_le_right _ _)]
      have hc : (drainingPause st).draining_pause_seconds
          = min (2 * st.draining_pause_seconds) 3600 := rfl
      rw [hc]
      have h2 : (0 : ℚ) ≤ (2 : ℚ) ^ (es.count DrainEvent.drain) := by positivity
      have h1 : (1 : ℚ) ≤ (2 : ℚ) ^ (es.count DrainEvent.drain) :=
        one_le_pow₀ (by norm_num)
      have h36 : (3600 : ℚ) ≤ 3600 * 2 ^ (es.count DrainEvent.drain) := by nlinarith
      rw [min_mul_of_nonneg _ _ h2, min_assoc, min_eq_right h36]
      have hcount : (DrainEvent.drain :: es).count DrainEvent.drain
          = es.count DrainEvent.drain + 1 := by simp [List.count_cons]
      rw [hcount, pow_succ]
      ring_nf

/-- C8 (amended): across successive draining pauses of one consumer
instance the pause duration doubles up to the cap of 3600 seconds, and
it is *not* reset by `start()`: after any sequence of start/stop/drain
events since construction, `_draining_pause_seconds` is
`min (15 * 2 ^ number-of-drains) 3600`, irrespective of how many times
`start()` or `stop()` ran; it returns to 15 only when a new consumer
instance is constructed. -/
theorem draining_pause_backoff (events : List DrainEvent) :
    (runDrainEvents events).draining_pause_seconds
      = min (15 * 2 ^ (events.count DrainEvent.drain)) 3600 :=
  foldl_drain_pause consumerInit (by norm_num [consumerInit]) events

/-! ## Claim C6: normal callback returns select ack / reject-without-requeue -/

/-- C6: for every sequence of messages handed to a worker whose
callback returns normally on each of them, the worker hands off exactly
one operation per message, in order: a `basic_ack` when the callback
returned `True` and a `basic_reject` with `requeue=False` when it
returned `False` — nothing else, and no internal retry (the final
hand-off list is exactly one action per processed message); the worker
keeps running and the consumer is not stopped. -/
theorem worker_ack_reject {ε : Type} (process : Nat → Except ε Bool)
    (tags : List Nat) (cbs : List AckAction)
    (h : ∀ t ∈ tags, ∃ b, process t = Except.ok b) :
    workerLoop process tags ⟨false, true, cbs⟩
      = ⟨false, true, cbs ++ tags.map (actionFor process)⟩ := by
  induction tags generalizing cbs with
  | nil => simp [workerLoop]
  | cons t rest ih =>
    obtain ⟨b, hb⟩ := h t (by simp)
    have hrest : ∀ x ∈ rest, ∃ c, process x = Except.ok c :=
      fun x hx => h x (by simp [hx])
    rw [workerLoop, if_pos rfl, hb]
    cases b with
    | true =>
      rw [show processMessage (Except.ok true) t ⟨false, true, cbs⟩
          = ⟨false, true, cbs ++ [AckAction.ack t]⟩ from rfl]
      rw [ih _ hrest]
      simp [actionFor, hb]
    | false =>
      rw [show processMessage (Except.ok false) t ⟨false, true, cbs⟩
          = ⟨false, true, cbs ++ [AckAction.reject t false]⟩ from rfl]
      rw [ih _ hrest]
      simp [actionFor, hb]

/-- C6 witness: one worker processing tags 0 and 1, its callback
returning `True` for 0 and `False` for 1, acknowledges 0 once and
rejects 1 without requeue once. -/
theorem worker_ack_reject_witness :
    workerLoop evenOkCallback [0, 1] ⟨false, true, []⟩
      = ⟨false, true, [AckAction.ack 0, AckAction.reject 1 false]⟩ := by
  have h := worker_ack_reject evenOkCallback [0, 1] [] (fun t _ => ⟨_, rfl⟩)
  simpa [actionFor, evenOkCallback] using h

/-! ## Claim C5: a callback exception shuts the consumer down -/

/-- C5: when the user callback raises on a message, the worker neither
acknowledges nor rejects that message (the hand-off list is unchanged),
`Consumer._on_error` stops the whole consumer (`_stopped` is set, so
the `start` loop's `if self._stopped: break` fires, `start` raises
`TerminatedConsumtion`, and consumption resumes only via an explicit
new `start` call), the worker's own loop exits, and no later message of
that worker is processed. -/
theorem callback_exception_stops_consumer {ε : Type} (process : Nat → Except ε Bool)
    (tag : Nat) (rest : List Nat) (cbs : List AckAction) (e : ε)
    (h : process tag = Except.error e) :
    workerLoop process (tag :: rest) ⟨false, true, cbs⟩ = ⟨true, false, cbs⟩
    ∧ ioLoopContinues (workerLoop process (tag :: rest) ⟨false, true, cbs⟩) = false := by
  have hstep : workerLoop process (tag :: rest) ⟨false, true, cbs⟩
      = workerLoop process rest ⟨true, false, cbs⟩ := by
    rw [workerLoop, if_pos rfl, h]
    rfl
  have hstopped : workerLoop process rest ⟨true, false, cbs⟩ = ⟨true, false, cbs⟩ := by
    cases rest with
    | nil => rfl
    | cons r rs => rw [workerLoop, if_neg (by simp)]
  rw [hstep, hstopped]
  exact ⟨rfl, rfl⟩

/-- C5 witness: a callback raising on message 7 leaves two later queued
messages unprocessed, hands off no ack or reject, and stops the
consumer. -/
theorem callback_exception_stops_consumer_witness :
    workerLoop raisingCallback [7, 8, 9] ⟨false, true, []⟩ = ⟨true, false, []⟩
    ∧ ioLoopContinues (workerLoop raisingCallback [7, 8, 9] ⟨false, true, []⟩)
        = false :=
  callback_exception_stops_consumer raisingCallback 7 [8, 9] [] () rfl

/-! ## Claim C3: the retry-on-conflict primitive -/

lemma retryGo_all_conflict {ε ρ : Type} (f : Nat → CallOutcome ε ρ)
    (h : ∀ i, ∃ e, f i = CallOutcome.conflict e) :
    ∀ remaining i eN, f (i + remaining) = CallOutcome.conflict eN →
      retryGo f i remaining = (i + remaining + 1, Except.error eN) := by
  intro remaining
  induction remaining with
  | zero =>
    intro i eN hN
    rw [Nat.add_zero] at hN
    conv_lhs => unfold retryGo
    rw [hN]
  | succ rem ih =>
    intro i eN hN
    obtain ⟨e0, he0⟩ := h i
    have hstep : retryGo f i (rem + 1) = retryGo f (i + 1) rem := by
      conv_lhs => unfold retryGo
      rw [he0]
    have hN1 : f (i + 1 + rem) = CallOutcome.conflict eN := by
      rw [show i + 1 + rem = i + (rem + 1) by omega]
      exact hN
    rw [hstep, ih (i + 1) eN hN1]
    congr 2
    omega

/-- C3: `retry_on_deadlock` with retry count `retries` invokes its
wrapped callable exactly `1 + retries` times and then propagates the
last error when every invocation raises a conflict-class error; it
invokes the callable exactly once when the first invocation succeeds;
and an error outside the conflict class propagates immediately after a
single invocation, with no retry. -/
theorem retry_on_deadlock_invocations {ε ρ : Type} (retries : Nat)
    (f : Nat → CallOutcome ε ρ) :
    ((∀ i, ∃ e, f i = CallOutcome.conflict e) →
      ∀ eN, f retries = CallOutcome.conflict eN →
        retry_on_deadlock retries f = (retries + 1, Except.error eN))
    ∧ (∀ r, f 0 = CallOutcome.success r →
        retry_on_deadlock retries f = (1, Except.ok r))
    ∧ (∀ e, f 0 = CallOutcome.failure e →
        retry_on_deadlock retries f = (1, Except.error e)) := by
  refine ⟨fun h eN hN => ?_, fun r hr => ?_, fun e he => ?_⟩
  · have heq := retryGo_all_conflict f h retries 0 eN (by rw [Nat.zero_add]; exact hN)
    rw [retry_on_deadlock, heq, Nat.zero_add]
  · rw [retry_on_deadlock]
    conv_lhs => unfold retryGo
    rw [hr]
  · rw [retry_on_deadlock]
    conv_lhs => unfold retryGo
    rw [he]

/-- C3 witness: with the default retry count 11, a callable that always
raises the conflict kind is invoked 12 times and the 12th error
propagates; a callable that succeeds at once is invoked once; a
callable raising a non-conflict error is invoked once, the error
propagating immediately. -/
theorem retry_on_deadlock_invocations_witness :
    retry_on_deadlock 11 (fun _ => (CallOutcome.conflict 0 : CallOutcome Nat Unit))
        = (12, Except.error 0)
    ∧ retry_on_deadlock 11 (fun _ => (CallOutcome.success () : CallOutcome Nat Unit))
        = (1, Except.ok ())
    ∧ retry_on_deadlock 11 (fun _ => (CallOutcome.failure 5 : CallOutcome Nat Unit))
        = (1, Except.error 5) :=
  ⟨(retry_on_deadlock_invocations 11 _).1 (fun _ => ⟨0, rfl⟩) 0 rfl,
    (retry_on_deadlock_invocations 11 _).2.1 () rfl,
    (retry_on_deadlock_invocations 11 _).2.2 5 rfl⟩

/-! ## Claims C4 and C9: the atomic wrapper -/

lemma retryBody_ok {ρ : Type} {body : Body ρ} {s s1 : Session} {r : ρ} (n : Nat)
    (h : body s = (s1, Outcome.ok r)) : retryBody body n s = (s1, Outcome.ok r) := by
  conv_lhs => unfold retryBody
  rw [h]

lemma retryBody_err {ρ : Type} {body : Body ρ} {s s1 : Session} (n : Nat)
    (h : body s = (s1, Outcome.err)) : retryBody body n s = (s1, Outcome.err) := by
  conv_lhs => unfold retryBody
  rw [h]

/-- C4: a nested (inner) invocation of an atomic-wrapped function on a
session already inside an atomic block executes the function body
directly, with no commit and no rollback of its own; consequently a
two-level nested invocation started outside an atomic block performs
exactly one commit when the body returns normally (no rollback), and
exactly one rollback when the body raises an unhandled error (no
commit) — never two of either. -/
theorem atomic_nested_single_commit {ρ : Type} (retries : Nat)
    (body0 : Session → Outcome ρ) (s : Session)
    (hflag : s.atomic_flag = false) :
    (∀ t, t.atomic_flag = true →
      atomicWrapper retries false (liftBody body0) t = liftBody body0 t)
    ∧ (∀ r, body0 { s with atomic_flag := true } = Outcome.ok r →
        atomicWrapper retries false
            (atomicWrapper retries false (liftBody body0)) s
          = ({ s with atomic_flag := false, commits := s.commits + 1 },
              Outcome.ok r))
    ∧ (body0 { s with atomic_flag := true } = Outcome.err →
        atomicWrapper retries false
            (atomicWrapper retries false (liftBody body0)) s
          = ({ s with atomic_flag := false, rollbacks := s.rollbacks + 1 },
              Outcome.err)) := by
  have hinner : ∀ t, t.atomic_flag = true →
      atomicWrapper retries false (liftBody body0) t = liftBody body0 t := by
    intro t ht
    unfold atomicWrapper
    rw [if_pos ht]
  refine ⟨hinner, fun r hr => ?_, fun hr => ?_⟩
  · have hi : atomicWrapper retries false (liftBody body0) { s with atomic_flag := true }
        = ({ s with atomic_flag := true }, Outcome.ok r) := by
      rw [hinner _ rfl, liftBody, hr]
    set g := atomicWrapper retries false (liftBody body0) with hg
    have hretry := retryBody_ok retries hi
    unfold atomicWrapper
    rw [if_neg (by simp [hflag]), hretry]
    rfl
  · have hi : atomicWrapper retries false (liftBody body0) { s with atomic_flag := true }
        = ({ s with atomic_flag := true }, Outcome.err) := by
      rw [hinner _ rfl, liftBody, hr]
    set g := atomicWrapper retries false (liftBody body0) with hg
    have hretry := retryBody_err retries hi
    unfold atomicWrapper
    rw [if_neg (by simp [hflag]), hretry]

/-- C4 witness: a concrete two-level nested run on a fresh session:
a normally returning body yields exactly one commit and no rollback;
a raising body yields exactly one rollback and no commit. -/
theorem atomic_nested_single_commit_witness :
    atomicWrapper 11 false (atomicWrapper 11 false (liftBody bodyOk)) ⟨false, 0, 0⟩
      = (⟨false, 1, 0⟩, Outcome.ok ())
    ∧ atomicWrapper 11 false (atomicWrapper 11 false (liftBody bodyRaise)) ⟨false, 0, 0⟩
      = (⟨false, 0, 1⟩, Outcome.err) :=
  ⟨(atomic_nested_single_commit 11 bodyOk ⟨false, 0, 0⟩ rfl).2.1 () rfl,
    (atomic_nested_single_commit 11 bodyRaise ⟨false, 0, 0⟩ rfl).2.2 rfl⟩

/-- C9: for every outermost invocation of an atomic-wrapped function
(session not yet inside an atomic block), the session's "inside atomic"
flag is cleared by the time the call returns or raises, whatever the
body, the retry count, and the commit behaviour — covering normal
return, commit failure, rollback after a body error, and a re-raised
`DBSerializationError` after retry exhaustion; and the flag is set on
entry: a body that reports the flag it observes observes `true`. -/
theorem atomic_flag_cleared :
    (∀ (ρ : Type) (retries : Nat) (commitFail : Bool) (body : Body ρ) (s : Session),
      s.atomic_flag = false →
      ((atomicWrapper retries commitFail body s).1).atomic_flag = false)
    ∧ (∀ retries s, s.atomic_flag = false →
      (atomicWrapper retries false
          (liftBody (fun t => Outcome.ok t.atomic_flag)) s).2
        = Outcome.ok true) := by
  constructor
  · intro ρ retries cf body s hflag
    unfold atomicWrapper
    rw [if_neg (by simp [hflag])]
    rcases hr : retryBody body retries { s with atomic_flag := true } with ⟨s2, out⟩
    cases out with
    | ok r => cases cf <;> rfl
    | err => rfl
    | dbserr => rfl
  · intro retries s hflag
    have hi : liftBody (fun t => Outcome.ok t.atomic_flag) { s with atomic_flag := true }
        = ({ s with atomic_flag := true }, Outcome.ok true) := rfl
    have hretry := retryBody_ok retries hi
    unfold atomicWrapper
    rw [if_neg (by simp [hflag]), hretry]
    rfl

/-- C9 witness: a concrete outermost run on a fresh session with a
failing commit still ends with the flag cleared; a body observing the
flag sees it set. -/
theorem atomic_flag_cleared_witness :
    ((atomicWrapper 11 true (liftBody bodyOk) ⟨false, 0, 0⟩).1).atomic_flag = false
    ∧ (atomicWrapper 11 false
        (liftBody (fun t => Outcome.ok t.atomic_flag)) ⟨false, 0, 0⟩).2
      = Outcome.ok true :=
  ⟨atomic_flag_cleared.1 Unit 11 true (liftBody bodyOk) ⟨false, 0, 0⟩ rfl,
    atomic_flag_cleared.2 11 ⟨false, 0, 0⟩ rfl⟩

/-! ## Claims C1 and C2: the flush burst loop -/

lemma flushmanyAux_step_error {α ε : Type} {m : SignalModel α ε} {burst : Nat}
    (fuel : Nat) {table : List α} {sent cycles : Nat} {e : ε}
    (h : send_and_delete_signal_instances m (table.take burst) = Except.error e) :
    flushmanyAux m burst (fuel + 1) table sent cycles
      = ⟨Except.error e, table, cycles⟩ := by
  conv_lhs => unfold flushmanyAux
  rw [h]

lemma flushmanyAux_step_last {α ε : Type} {m : SignalModel α ε} {burst : Nat}
    (fuel : Nat) {table : List α} {sent cycles : Nat} {n : Nat}
    (h : send_and_delete_signal_instances m (table.take burst) = Except.ok n)
    (hlt : (table.take burst).length < burst) :
    flushmanyAux m burst (fuel + 1) table sent cycles
      = ⟨Except.ok (sent + n), table.drop burst, cycles + 1⟩ := by
  have hred : flushmanyAux m burst (fuel + 1) table sent cycles
      = if (table.take burst).length < burst then
          ⟨Except.ok (sent + n), table.drop burst, cycles + 1⟩
        else flushmanyAux m burst fuel (table.drop burst) (sent + n) (cycles + 1) := by
    conv_lhs => unfold flushmanyAux
    rw [h]
  rw [hred, if_pos hlt]

lemma flushmanyAux_step_cont {α ε : Type} {m : SignalModel α ε} {burst : Nat}
    (fuel : Nat) {table : List α} {sent cycles : Nat} {n : Nat}
    (h : send_and_delete_signal_instances m (table.take burst) = Except.ok n)
    (hge : ¬(table.take burst).length < burst) :
    flushmanyAux m burst (fuel + 1) table sent cycles
      = flushmanyAux m burst fuel (table.drop burst) (sent + n) (cycles + 1) := by
  have hred : flushmanyAux m burst (fuel + 1) table sent cycles
      = if (table.take burst).length < burst then
          ⟨Except.ok (sent + n), table.drop burst, cycles + 1⟩
        else flushmanyAux m burst fuel (table.drop burst) (sent + n) (cycles + 1) := by
    conv_lhs => unfold flushmanyAux
    rw [h]
  rw [hred, if_neg hge]

lemma flushmanyAux_error_shape {α ε : Type} (m : SignalModel α ε) (burst : Nat) :
    ∀ (fuel : Nat) (table : List α) (sent cycles : Nat) (e : ε),
      (flushmanyAux m burst fuel table sent cycles).result = Except.error e →
      ∃ k, (flushmanyAux m burst fuel table sent cycles).table
          = table.drop (burst * k)
        ∧ deliverBatch m ((table.drop (burst * k)).take burst) = Except.error e
        ∧ ∀ j < k, deliverBatch m ((table.drop (burst * j)).take burst)
            = Except.ok () := by
  intro fuel
  induction fuel with
  | zero =>
    intro table sent cycles e h
    exact absurd h (by simp [flushmanyAux])
  | succ fuel ih =>
    intro table sent cycles e h
    cases hsd : send_and_delete_signal_instances m (table.take burst) with
    | error e1 =>
      rw [flushmanyAux_step_error fuel hsd] at h
      have he : e1 = e := by simpa using h
      subst he
      rw [flushmanyAux_step_error fuel hsd]
      refine ⟨0, by simp, ?_, fun j hj => absurd hj (Nat.not_lt_zero j)⟩
      rw [Nat.mul_zero, List.drop_zero]
      exact deliverBatch_of_sad_error hsd
    | ok n =>
      by_cases hlt : (table.take burst).length < burst
      · rw [flushmanyAux_step_last fuel hsd hlt] at h
        exact absurd h (by simp)
      · rw [flushmanyAux_step_cont fuel hsd hlt] at h ⊢
        obtain ⟨k, h1, h2, h3⟩ := ih (table.drop burst) (sent + n) (cycles + 1) e h
        have hidxk : burst * (k + 1) = burst + burst * k := by ring
        refine ⟨k + 1, ?_, ?_, ?_⟩
        · rw [h1, List.drop_drop, hidxk]
        · rw [hidxk, ← List.drop_drop]
          exact h2
        · intro j hj
          cases j with
          | zero =>
            rw [Nat.mul_zero, List.drop_zero]
            exact deliverBatch_of_sad_ok hsd
          | succ j1 =>
            have hidxj : burst * (j1 + 1) = burst + burst * j1 := by ring
            rw [hidxj, ← List.drop_drop]
            exact h3 j1 (by omega)

/-- C1: for every record type and pending table, when the flush loop's
result is a delivery error, there is a number `k` of claimed batches
that were fully delivered, deleted and committed before it: the
committed table afterwards is exactly the original minus those first
`k` bursts (so every deleted row belonged to a batch whose delivery
call returned without error), delivery of each of those `k` batches
returned without error, the (k+1)-th claimed batch is the one whose
delivery raised the propagated error, and its rows together with all
later pending rows are still present in the table. -/
theorem flushmany_delete_only_after_delivery {α ε : Type} (m : SignalModel α ε)
    (table : List α) (e : ε) (_hb : 0 < m.signalbus_burst_count)
    (herr : (flushmany m table).result = Except.error e) :
    ∃ k, (flushmany m table).table = table.drop (m.signalbus_burst_count * k)
      ∧ deliverBatch m
          ((table.drop (m.signalbus_burst_count * k)).take m.signalbus_burst_count)
          = Except.error e
      ∧ ∀ j < k, deliverBatch m
          ((table.drop (m.signalbus_burst_count * j)).take m.signalbus_burst_count)
          = Except.ok () :=
  flushmanyAux_error_shape m m.signalbus_burst_count (table.length + 1)
    table 0 0 e herr

/-- C1 witness: burst size 1, rows `[0, 1, 2, 3]`, delivery raising on
row 2: the flush propagates the error, rows 0 and 1 (batches 1 and 2)
are deleted and committed, rows 2 and 3 are still pending. -/
theorem flushmany_delete_only_after_delivery_witness :
    0 < failOn2Model.signalbus_burst_count
    ∧ (flushmany failOn2Model [0, 1, 2, 3]).result = Except.error "boom"
    ∧ (flushmany failOn2Model [0, 1, 2, 3]).table = [2, 3]
    ∧ ∃ k, (flushmany failOn2Model [0, 1, 2, 3]).table
          = List.drop (failOn2Model.signalbus_burst_count * k) [0, 1, 2, 3]
        ∧ deliverBatch failOn2Model
            (List.take failOn2Model.signalbus_burst_count
              (List.drop (failOn2Model.signalbus_burst_count * k) [0, 1, 2, 3]))
            = Except.error "boom"
        ∧ ∀ j < k, deliverBatch failOn2Model
            (List.take failOn2Model.signalbus_burst_count
              (List.drop (failOn2Model.signalbus_burst_count * j) [0, 1, 2, 3]))
            = Except.ok () :=
  ⟨by decide, by rfl, by rfl,
    flushmany_delete_only_after_delivery failOn2Model [0, 1, 2, 3] "boom"
      (by decide) (by rfl)⟩

lemma flushmanyAux_all_ok {α ε : Type} (m : SignalModel α ε) (burst : Nat)
    (hb : 0 < burst) (hok : ∀ l, deliverBatch m l = Except.ok ()) :
    ∀ (fuel : Nat) (table : List α) (sent cycles : Nat), table.length < fuel →
      flushmanyAux m burst fuel table sent cycles
        = ⟨Except.ok (sent + table.length), [], cycles + table.length / burst + 1⟩ := by
  intro fuel
  induction fuel with
  | zero =>
    intro table sent cycles h
    exact absurd h (Nat.not_lt_zero _)
  | succ fuel ih =>
    intro table sent cycles h
    have hsd : send_and_delete_signal_instances m (table.take burst)
        = Except.ok (table.take burst).length := by
      unfold send_and_delete_signal_instances
      rw [hok]
    have htake : (table.take burst).length = min burst table.length :=
      List.length_take _ _
    by_cases hlt : table.length < burst
    · have hlt2 : (table.take burst).length < burst := by
        rw [htake]; omega
      rw [flushmanyAux_step_last fuel hsd hlt2]
      have hdrop : table.drop burst = [] :=
        List.drop_eq_nil_of_le (le_of_lt hlt)
      have hdiv : table.length / burst = 0 := Nat.div_eq_of_lt hlt
      rw [hdrop, hdiv]
      have hlen : (table.take burst).length = table.length := by
        rw [htake]; omega
      rw [hlen]
    · have hge : ¬(table.take burst).length < burst := by
        rw [htake]; omega
      rw [flushmanyAux_step_cont fuel hsd hge]
      have hdlen : (table.drop burst).length = table.length - burst :=
        List.length_drop _ _
      rw [ih (table.drop burst) (sent + (table.take burst).length) (cycles + 1)
        (by omega)]
      have hdiv : table.length / burst = (table.length - burst) / burst + 1 :=
        Nat.div_eq_sub_div hb (by omega)
      have hlen : (table.take burst).length = burst := by
        rw [htake]; omega
      rw [hdlen, hlen, hdiv]
      congr 2
      · omega
      · omega

/-- C2 counterexample: the claim fails at burst size B = 1.  With burst
size 1 and 2·B+1 = 3 pending rows and no errors, the flush performs
**4** claim/commit cycles, not 3: the third fetched batch has exactly
one row, which is not smaller than the burst size, so the loop runs a
fourth, empty cycle before stopping.  The returned count is 3, as the
claim says. -/
theorem flushmany_burst_one_four_cycles :
    (flushmany (allOkModel 1) [0, 1, 2]).cycles = 4
    ∧ ¬((flushmany (allOkModel 1) [0, 1, 2]).cycles = 3)
    ∧ (flushmany (allOkModel 1) [0, 1, 2]).result = Except.ok 3 :=
  ⟨by decide, by decide, by rfl⟩

/-- C2 (amended): for every burst size B ≥ 2, a flush of a type with
exactly 2·B+1 pending rows (no concurrent claimants, no errors)
performs exactly 3 claim/commit cycles, returns 2·B+1, and leaves the
table empty.  (For B = 1 the loop performs 4 cycles — see the
counterexample — because the last non-empty batch is then not smaller
than B; in general the cycle count is ⌊rows/B⌋ + 1.) -/
theorem flushmany_three_cycles {α ε : Type} (B : Nat) (hB : 2 ≤ B)
    (m : SignalModel α ε) (table : List α)
    (hm : m.signalbus_burst_count = B)
    (hok : ∀ l, deliverBatch m l = Except.ok ())
    (hlen : table.length = 2 * B + 1) :
    (flushmany m table).cycles = 3
    ∧ (flushmany m table).result = Except.ok (2 * B + 1)
    ∧ (flushmany m table).table = [] := by
  have hb : 0 < B := by omega
  have hdiv : (2 * B + 1) / B = 2 := by
    apply Nat.div_eq_of_lt_le <;> omega
  have h := flushmanyAux_all_ok m B hb hok (table.length + 1) table 0 0
    (by omega)
  unfold flushmany
  rw [hm, h, hlen, hdiv]
  exact ⟨rfl, by simp, rfl⟩

/-- C2 witness: burst size 2, five pending rows, all deliveries
succeeding: exactly 3 cycles, 5 rows reported sent, table empty. -/
theorem flushmany_three_cycles_witness :
    (flushmany (allOkModel 2) [0, 1, 2, 3, 4]).cycles = 3
    ∧ (flushmany (allOkModel 2) [0, 1, 2, 3, 4]).result = Except.ok (2 * 2 + 1)
    ∧ (flushmany (allOkModel 2) [0, 1, 2, 3, 4]).table = [] :=
  flushmany_three_cycles 2 (by norm_num) (allOkModel 2) [0, 1, 2, 3, 4] rfl
    (allOkModel_deliverBatch 2) rfl

end SwptPythonlib
